import Mathlib

/-!
Shallow embedding of the CSV time-series ingestion pipeline of the
EnergyForecasting repository
(`src/api/data/schemas/y_series_api.py`, `src/data/schemas/timeseries.py`,
`src/config.py`).

Timestamps are modelled as wall-clock minutes since 1970-01-01 00:00 in the
index's zone; a zone is a name with a fixed UTC offset in minutes (zone-rule
variation such as DST is abstracted away: no property verified here depends
on the offset values).  CSV cells are modelled by the information content of
their text: a numeral, a datetime literal with or without a UTC offset, a
missing/NaN token, or other text.  Calls into the pandas library
(`read_csv` dtype inference, `to_datetime`, `tz_localize`/`tz_convert`,
`infer_freq`, `date_range`) are modelled by executable Lean functions that
follow the documented pandas behaviour on the shapes of data this pipeline
produces.
-/

namespace EnergyForecast

/-- A CSV cell, by the information content of its text: a numeral, a
datetime literal carrying wall-clock minutes and an optional UTC offset
(minutes), a missing/NaN token, or other unparseable text. -/
inductive Cell where
  | num (q : ℚ)
  | ts (wall : Int) (off : Option Int)
  | na
  | other (s : String)
deriving DecidableEq, Repr

/-- Typed rendering of the distinct raise sites of the ingestion code
(`y_series_api.py`).  The spec groups them into SchemaError / ParseError /
TimezoneError / GranularityError / ContinuityError / ValueDomainError. -/
inductive IngestError where
  | timezoneNotAllowed (tz : String)    -- from_api_data line 30 (TimezoneError)
  | csvUnparseable                      -- from_api_data line 36 (ParseError)
  | missingTimestampColumn              -- from_api_data line 39 (SchemaError)
  | wrongColumnCount (cols : List String) -- from_api_data line 41 (SchemaError)
  | timestampParseFailed                -- pd.to_datetime with errors="raise" (ParseError)
  | indexNotDatetime                    -- validate_dataframe line 88
  | indexNotTzAware                     -- validate_dataframe line 90
  | wrongDataColumnCount (n : Nat)      -- validate_dataframe line 92
  | tooFewPoints                        -- validate_dataframe line 97
  | freqNotInferred                     -- validate_dataframe line 102 (ContinuityError)
  | missingDates                        -- validate_dataframe line 109 (ContinuityError)
  | valueNotNumeric                     -- validate_dataframe line 113 (ValueDomainError)
  | valueNull                           -- validate_dataframe line 115 (ValueDomainError)
  | valueNonPositive                    -- validate_dataframe line 117 (ValueDomainError)
  | granularityNotSupported (g : String) -- validate_granularity (GranularityError)
  | timezoneNotInList (tz : String)     -- validate_timezone (TimezoneError)
deriving DecidableEq, Repr

/-- `AppSettings.allowed_timezones` default (`config.py` line 15). -/
def allowedTimezones : List String := ["UTC", "Europe/Paris"]

/-- `AppSettings.granularity_freq_map` default (`config.py` lines 17-24). -/
def granularityFreqMap : List (String × String) :=
  [("hourly", "H"), ("daily", "D"), ("monthly", "M")]

/-- Fixed UTC offset in minutes of an allowed zone.  UTC is 0; Europe/Paris
is modelled at its standard offset +60 (zone-rule/DST variation is
abstracted; no verified property depends on the offset values). -/
def tzOffsetMinutes (tz : String) : Int :=
  if tz = "Europe/Paris" then 60 else 0

/-! ## Civil calendar (proleptic Gregorian), minute-based walls

A wall-clock value is `Int` minutes since 1970-01-01 00:00.  Months are
indexed by `Int` months since January 1970 (month index 0 = 1970-01). -/

/-- Gregorian leap-year rule. -/
def isLeapYear (y : Int) : Bool :=
  (y % 4 == 0 && y % 100 != 0) || (y % 400 == 0)

/-- Calendar year of month index `mi` (months since 1970-01). -/
def miYear (mi : Int) : Int := 1970 + mi.fdiv 12

/-- Length in days of the month with index `mi`. -/
def monthLen (mi : Int) : Int :=
  let m := mi.emod 12
  if m = 1 then (if isLeapYear (miYear mi) then 29 else 28)
  else if m = 3 ∨ m = 5 ∨ m = 8 ∨ m = 10 then 30
  else 31

/-- Days from 1970-01-01 to the first day of month index `n` (nonnegative side). -/
def daysBeforeMonthNat : Nat → Int
  | 0 => 0
  | n + 1 => daysBeforeMonthNat n + monthLen n

/-- Days from 1970-01-01 back to the first day of month index `-n`. -/
def daysBeforeMonthNegNat : Nat → Int
  | 0 => 0
  | n + 1 => daysBeforeMonthNegNat n - monthLen (-(n + 1 : Int))

/-- Days from 1970-01-01 to the first day of month index `mi`. -/
def daysBeforeMonth : Int → Int
  | .ofNat n => daysBeforeMonthNat n
  | .negSucc n => daysBeforeMonthNegNat (n + 1)

/-- Day number (days since 1970-01-01) of a wall-clock minute value. -/
def wallDay (w : Int) : Int := w / 1440

/-- Minute of day of a wall-clock minute value. -/
def wallTod (w : Int) : Int := w % 1440

/-- Binary search for the greatest `mi` with `daysBeforeMonth mi ≤ d`,
given a bracketing interval; fuel-bounded so it is structurally recursive. -/
def monthIdxSearch (d : Int) : Int → Int → Nat → Int
  | lo, _, 0 => lo
  | lo, hi, fuel + 1 =>
    if hi ≤ lo + 1 then lo
    else
      let mid := (lo + hi).fdiv 2
      if daysBeforeMonth mid ≤ d then monthIdxSearch d mid hi fuel
      else monthIdxSearch d lo mid fuel

/-- Month index containing day number `d`. -/
def dayMonthIdx (d : Int) : Int :=
  let lo := min (d.fdiv 28) (d.fdiv 31) - 1
  let hi := max (d.fdiv 28) (d.fdiv 31) + 2
  monthIdxSearch d lo hi 128

/-! ## Frequency inference and grid reconstruction (pandas `infer_freq` /
`date_range`, restricted to the fixed-step and monthly rules this pipeline
exercises) -/

/-- An inferred or declared sampling frequency: a fixed step of `d` minutes,
or a calendar step of `k` months anchored to month starts / month ends. -/
inductive Freq where
  | step (d : Int)
  | monthStart (k : Int)
  | monthEnd (k : Int)
deriving DecidableEq, Repr

/-- Consecutive differences of a list. -/
def deltas (l : List Int) : List Int :=
  List.zipWith (fun a b => b - a) l l.tail

/-- Strict monotonicity of a wall-clock sequence. -/
def strictlyIncreasing (l : List Int) : Bool :=
  (deltas l).all (fun d => 0 < d)

/-- `some x` when the list is nonempty and all its elements equal `x`. -/
def allEqual : List Int → Option Int
  | [] => none
  | x :: xs => if xs.all (fun y => y = x) then some x else none

/-- Sequence all the `Option`s of a list. -/
def allSome {α : Type} : List (Option α) → Option (List α)
  | [] => some []
  | none :: _ => none
  | some a :: rest => (allSome rest).map (fun l => a :: l)

/-- `some mi` when wall `w` lies on the first day of month `mi`. -/
def monthStartIdx? (w : Int) : Option Int :=
  let mi := dayMonthIdx (wallDay w)
  if daysBeforeMonth mi = wallDay w then some mi else none

/-- `some mi` when wall `w` lies on the last day of month `mi`. -/
def monthEndIdx? (w : Int) : Option Int :=
  let mi := dayMonthIdx (wallDay w)
  if daysBeforeMonth (mi + 1) - 1 = wallDay w then some mi else none

/-- Month distance of a consecutive pair when both walls sit on month starts
at the same minute of day. -/
def monthDiff? (a b : Int) : Option Int :=
  match monthStartIdx? a, monthStartIdx? b with
  | some ma, some mb => if wallTod a = wallTod b then some (mb - ma) else none
  | _, _ => none

/-- Month distance of a consecutive pair when both walls sit on month ends
at the same minute of day. -/
def monthEndDiff? (a b : Int) : Option Int :=
  match monthEndIdx? a, monthEndIdx? b with
  | some ma, some mb => if wallTod a = wallTod b then some (mb - ma) else none
  | _, _ => none

/-- Month-start rule of frequency inference: every consecutive pair sits on
month starts at one common minute of day and is the same `k ≥ 1` months apart. -/
def monthStartRule (ws : List Int) : Option Int :=
  match allSome (List.zipWith monthDiff? ws ws.tail) with
  | some ks =>
    match allEqual ks with
    | some k => if 1 ≤ k then some k else none
    | none => none
  | none => none

/-- Month-end rule of frequency inference, analogous to `monthStartRule`. -/
def monthEndRule (ws : List Int) : Option Int :=
  match allSome (List.zipWith monthEndDiff? ws ws.tail) with
  | some ks =>
    match allEqual ks with
    | some k => if 1 ≤ k then some k else none
    | none => none
  | none => none

/-- Model of `pd.infer_freq` on the index shapes this pipeline exercises:
`none` unless the index is strictly increasing (pandas requires a monotonic,
duplicate-free index; the negative-frequency case of a strictly decreasing
index is outside the modelled scope and also leads to rejection); a uniform
positive delta infers a fixed step, otherwise the monthly calendar rules
apply.  pandas raises on fewer than 3 points; the pipeline checks the length
first, so that branch is modelled as `none`. -/
def inferFreq (ws : List Int) : Option Freq :=
  if ws.length < 3 then none
  else if ¬ strictlyIncreasing ws then none
  else
    match allEqual (deltas ws) with
    | some d => some (.step d)
    | none =>
      match monthStartRule ws with
      | some k => some (.monthStart k)
      | none =>
        match monthEndRule ws with
        | some k => some (.monthEnd k)
        | none => none

/-- Meaning of the pandas offset-alias tokens stored in
`granularity_freq_map`, modelled from the pandas documentation: `H` is a
1-hour step, `D` a 1-calendar-day step, `M` a 1-month step anchored to month
END, `MS` a 1-month step anchored to month start.  (The repository never
interprets these tokens itself; this definition is only used to settle what
the configured tokens denote.) -/
def pandasFreqOfToken (s : String) : Option Freq :=
  if s = "H" then some (.step 60)
  else if s = "D" then some (.step 1440)
  else if s = "M" then some (.monthEnd 1)
  else if s = "MS" then some (.monthStart 1)
  else none

/-- First grid point at or after `w` that lies on the anchor of `f`
(pandas `rollforward`). -/
def rollForward (f : Freq) (w : Int) : Int :=
  match f with
  | .step _ => w
  | .monthStart _ =>
    match monthStartIdx? w with
    | some _ => w
    | none => 1440 * daysBeforeMonth (dayMonthIdx (wallDay w) + 1) + wallTod w
  | .monthEnd _ =>
    match monthEndIdx? w with
    | some _ => w
    | none => 1440 * (daysBeforeMonth (dayMonthIdx (wallDay w) + 1) - 1) + wallTod w

/-- The grid point following `w` at frequency `f` (applied to anchored `w`). -/
def freqStep (f : Freq) (w : Int) : Int :=
  match f with
  | .step d => w + d
  | .monthStart k => 1440 * daysBeforeMonth (dayMonthIdx (wallDay w) + k) + wallTod w
  | .monthEnd k => 1440 * (daysBeforeMonth (dayMonthIdx (wallDay w) + 1 + k) - 1) + wallTod w

/-- Fuel-bounded generator for `dateRange`; the fuel passed by `dateRange`
always suffices for the frequencies `inferFreq` produces, whose steps
advance by at least one minute. -/
def dateRangeGo (f : Freq) : Int → Int → Nat → List Int
  | _, _, 0 => []
  | cur, endW, fuel + 1 =>
    if endW < cur then []
    else if freqStep f cur ≤ cur then [cur]
    else cur :: dateRangeGo f (freqStep f cur) endW fuel

/-- Model of `pd.date_range(start, end, freq)` on wall-clock minutes. -/
def dateRange (f : Freq) (startW endW : Int) : List Int :=
  let s := rollForward f startW
  dateRangeGo f s endW (endW + 1 - s).toNat

/-- `df.index.min()`. -/
def listMin : List Int → Int
  | [] => 0
  | x :: xs => xs.foldl min x

/-- `df.index.max()`. -/
def listMax : List Int → Int
  | [] => 0
  | x :: xs => xs.foldl max x

/-- The continuity stage of `validate_dataframe` (lines 99-109): infer the
frequency, reconstruct the full grid from the index minimum to maximum at
the inferred frequency, and require the index to equal it element for
element. -/
def continuityCheck (ws : List Int) : Except IngestError Unit :=
  match inferFreq ws with
  | none => .error .freqNotInferred
  | some f =>
    if ws = dateRange f (listMin ws) (listMax ws) then .ok () else .error .missingDates

/-! ## DataFrame model and the pydantic validators of `APITimeSeriesInput` -/

/-- `true` for cells that `pd.read_csv` folds into a numeric column
(numerals; NaN tokens join a numeric column as missing values). -/
def cellIsNumericLike : Cell → Bool
  | .num _ => true
  | .na => true
  | _ => false

/-- Numeric value of a cell inside a numeric column (`none` = NaN). -/
def cellNum? : Cell → Option ℚ
  | .num q => some q
  | _ => none

/-- Column dtype inference of `pd.read_csv`: a column is numeric exactly
when every cell is a numeral or a NaN token; otherwise it keeps the textual
cells (object dtype, for which `pd.api.types.is_string_dtype` holds). -/
def cellsNumeric (cs : List Cell) : Bool := cs.all cellIsNumericLike

/-- Column data after dtype inference / conversion: a timezone-aware or
naive datetime column of wall minutes, a numeric column with missing
entries, or a textual column. -/
inductive ColData where
  | datetime (tz : Option String) (walls : List Int)
  | numeric (vals : List (Option ℚ))
  | strCol (cells : List Cell)
deriving DecidableEq, Repr

/-- Build a column from raw cells, as `pd.read_csv` dtype inference does. -/
def mkColFromCells (cs : List Cell) : ColData :=
  if cellsNumeric cs then .numeric (cs.map cellNum?) else .strCol cs

/-- A pandas DataFrame after `set_index`: an index column plus named data
columns. -/
structure DataFrame where
  index : ColData
  cols : List (String × ColData)
deriving DecidableEq, Repr

/-- The `dataframe` field validator of `APITimeSeriesInput`
(`y_series_api.py` lines 85-118): index type and awareness, single data
column, minimum length, continuity at the inferred frequency, then the
value-domain checks (numeric dtype, no nulls, strictly positive). -/
def validate_dataframe (df : DataFrame) : Except IngestError Unit :=
  match df.index with
  | .numeric _ => .error .indexNotDatetime
  | .strCol _ => .error .indexNotDatetime
  | .datetime none _ => .error .indexNotTzAware
  | .datetime (some _) ws =>
    if df.cols.length ≠ 1 then .error (.wrongDataColumnCount df.cols.length)
    else if ws.length < 3 then .error .tooFewPoints
    else
      match continuityCheck ws with
      | .error e => .error e
      | .ok _ =>
        match df.cols with
        | [(_, .numeric vs)] =>
          if vs.any (fun v => v.isNone) then .error .valueNull
          else if vs.any (fun v => match v with
              | some q => decide (q ≤ 0)
              | none => false) then .error .valueNonPositive
          else .ok ()
        | _ => .error .valueNotNumeric

/-- The validated API payload (`APITimeSeriesInput`). -/
structure APITimeSeriesInput where
  dataframe : DataFrame
  granularity : String
  timezone : String
deriving DecidableEq, Repr

/-- Pydantic construction of `APITimeSeriesInput`: the field validators run
in field declaration order (dataframe, granularity, timezone); the first
failure is reported. -/
def mkAPITimeSeriesInput (df : DataFrame) (gran tz : String) :
    Except IngestError APITimeSeriesInput :=
  match validate_dataframe df with
  | .error e => .error e
  | .ok _ =>
    if (granularityFreqMap.lookup gran).isNone then .error (.granularityNotSupported gran)
    else if ¬ (tz ∈ allowedTimezones) then .error (.timezoneNotInList tz)
    else .ok ⟨df, gran, tz⟩

/-! ## `from_api_data`: CSV text to validated payload -/

/-- Raw CSV text as consumed by `pd.read_csv`: either text that parses into
a header row plus a table of cells, or text on which `read_csv` raises
(which `from_api_data` converts into its CSV-parse failure). -/
inductive CSVText where
  | wellFormed (header : List String) (rows : List (List Cell))
  | malformed (s : String)
deriving DecidableEq, Repr

/-- `pd.read_csv(io.StringIO(str(raw).strip()))` wrapped in the try/except
of `from_api_data` lines 33-36. -/
def parseCSV : CSVText → Except IngestError (List String × List (List Cell))
  | .malformed _ => .error .csvUnparseable
  | .wellFormed h r => .ok (h, r)

/-- `pd.to_datetime(col, errors="raise").dt.tz_localize(tz)`: every element
must be an offset-free datetime literal (an offset-bearing element after a
naive first element makes pandas raise on the mixed column, as does any
unparseable text); the wall-clock values are kept and only tagged with the
declared zone. -/
def toDatetimeLocalize : List Cell → Except IngestError (List Int)
  | [] => .ok []
  | .ts w none :: cs => (toDatetimeLocalize cs).map (fun l => w :: l)
  | _ :: _ => .error .timestampParseFailed

/-- `pd.to_datetime(col, errors="raise", utc=True).dt.tz_convert(tz)`: an
offset-bearing element denotes the absolute instant `wall - off` and an
offset-free element is assumed to be UTC; the instant is then re-expressed
as a wall-clock value in the declared zone. -/
def toDatetimeUTC (tz : String) : List Cell → Except IngestError (List Int)
  | [] => .ok []
  | .ts w (some o) :: cs =>
    (toDatetimeUTC tz cs).map (fun l => (w - o + tzOffsetMinutes tz) :: l)
  | .ts w none :: cs =>
    (toDatetimeUTC tz cs).map (fun l => (w + tzOffsetMinutes tz) :: l)
  | _ :: _ => .error .timestampParseFailed

/-- ASCII lower-casing of a character (`str.lower` on the ASCII column
names this pipeline handles). -/
def asciiLowerChar (c : Char) : Char :=
  if 65 ≤ c.toNat ∧ c.toNat ≤ 90 then Char.ofNat (c.toNat + 32) else c

/-- `str.lower()` on ASCII strings. -/
def strLower (s : String) : String := ⟨s.data.map asciiLowerChar⟩

/-- Whether `pd.to_datetime(first_element, errors="coerce")` carries a
timezone (`y_series_api.py` lines 48-49). -/
def firstElemHasOffset (cs : List Cell) : Bool :=
  match cs.headD .na with
  | .ts _ (some _) => true
  | _ => false

/-- The timezone-resolution step of `from_api_data` (lines 46-61): one
branch is chosen from the first element of the column and applied to the
whole column. -/
def resolveTimestamps (cs : List Cell) (tz : String) : Except IngestError (List Int) :=
  if firstElemHasOffset cs then toDatetimeUTC tz cs else toDatetimeLocalize cs

/-- `APITimeSeriesInput.from_api_data` (lines 23-68): timezone allow-list
check, CSV parse, schema checks, timezone resolution (only for string-dtype
timestamp columns), `set_index`, value-column rename, then pydantic
validation.  (Corner not modelled: on a 0-row frame whose timestamp column
has object dtype pandas raises IndexError at `iloc[0]`; here an empty
column counts as numeric dtype and skips the branch.) -/
def from_api_data (raw : CSVText × String × String) :
    Except IngestError APITimeSeriesInput :=
  let (txt, gran, tz) := raw
  if ¬ (tz ∈ allowedTimezones) then .error (.timezoneNotAllowed tz)
  else
    match parseCSV txt with
    | .error e => .error e
    | .ok (header, rows) =>
      if ¬ (header.contains "timestamp") then .error .missingTimestampColumn
      else if header.length ≠ 2 then .error (.wrongColumnCount header)
      else
        let ti := header.indexOf "timestamp"
        let vi := 1 - ti
        let tsCells := rows.map (fun r => r.getD ti .na)
        let valCells := rows.map (fun r => r.getD vi .na)
        let valueName := (header.getD vi "")
        let step2 : Except IngestError ColData :=
          if cellsNumeric tsCells then .ok (mkColFromCells tsCells)
          else
            match resolveTimestamps tsCells tz with
            | .ok ws => .ok (.datetime (some tz) ws)
            | .error e => .error e
        match step2 with
        | .error e => .error e
        | .ok idx =>
          let cname := if strLower valueName = "value" then valueName else "value"
          mkAPITimeSeriesInput ⟨idx, [(cname, mkColFromCells valCells)]⟩ gran tz

/-! ## Serializer (`TimeSeriesData.to_csv`, `timeseries.py` lines 98-110) -/

/-- Cell rendered for a numeric value (`none` renders as a NaN token). -/
def renderCell : Option ℚ → Cell
  | some q => .num q
  | none => .na

/-- `df.to_csv()` on the frames this pipeline persists: header
`timestamp,<column name>`, each row an ISO timestamp carrying the zone's
UTC offset plus the value.  Frames of any other shape never reach the
serializer here and are not modelled. -/
def dataframeToCsv (df : DataFrame) : CSVText :=
  match df.index, df.cols with
  | .datetime (some tz) ws, [(cname, .numeric vs)] =>
    .wellFormed ["timestamp", cname]
      (List.zipWith (fun w v => [Cell.ts w (some (tzOffsetMinutes tz)), renderCell v]) ws vs)
  | _, _ => .malformed "frame shape outside the persisted pipeline"

/-- The persisted domain entity (`TimeSeriesData`). -/
structure TimeSeriesData where
  dataframe : DataFrame
  granularity : String
  name : String
deriving DecidableEq, Repr

/-- `TimeSeriesData.to_csv`: renders the dataframe to CSV text (the
file-system write is I/O outside the modelled scope; the method returns the
CSV text). -/
def TimeSeriesData.to_csv (t : TimeSeriesData) : CSVText :=
  dataframeToCsv t.dataframe

/-- Modelled from the spec (section 4.2, for comparison with the code's
`resolveTimestamps`): per-element timezone resolution — an offset-bearing
element is an absolute instant converted into the declared zone, an
offset-free element is tagged as wall-clock time in the declared zone with
no conversion, the branch chosen row by row. -/
def resolveTimestampsPerElement (tz : String) : List Cell → Except IngestError (List Int)
  | [] => .ok []
  | .ts w (some o) :: cs =>
    (resolveTimestampsPerElement tz cs).map (fun l => (w - o + tzOffsetMinutes tz) :: l)
  | .ts w none :: cs =>
    (resolveTimestampsPerElement tz cs).map (fun l => w :: l)
  | _ :: _ => .error .timestampParseFailed

deriving instance DecidableEq for Except

/-! ## Theorems -/

/-- C2.  Timezone fail-fast: for every input tuple whose declared timezone
is not in the allow-list — whatever the CSV text, malformed or not —
`from_api_data` fails with the timezone error of the pre-parse check
(the spec's `TimezoneError`), never a parse or schema error. -/
theorem c2_timezone_fail_fast (txt : CSVText) (gran tz : String)
    (h : tz ∉ allowedTimezones) :
    from_api_data (txt, gran, tz) = .error (.timezoneNotAllowed tz) := by
  simp only [from_api_data]
  rw [if_pos h]

/-- Witness for C2 at a malformed CSV and the disallowed zone Asia/Tokyo. -/
theorem c2_timezone_fail_fast_w :
    "Asia/Tokyo" ∉ allowedTimezones ∧
      from_api_data (.malformed "this is not a csv", "daily", "Asia/Tokyo") =
        .error (.timezoneNotAllowed "Asia/Tokyo") :=
  ⟨by decide, c2_timezone_fail_fast _ _ _ (by decide)⟩

/-- C10.  If the parsed timestamp column is not of string dtype (every cell
a numeral or NaN token, e.g. bare numeric epochs), the timezone-resolution
step is skipped and ingestion fails at the index-type check of
`validate_dataframe`, not with a timestamp parse error; no such input is
accepted. -/
theorem c10_numeric_timestamp_column (header : List String) (rows : List (List Cell))
    (gran tz : String)
    (htz : tz ∈ allowedTimezones)
    (hcol : header.contains "timestamp" = true)
    (hlen : header.length = 2)
    (hnum : cellsNumeric (rows.map (fun r => r.getD (header.indexOf "timestamp") .na)) = true) :
    from_api_data (.wellFormed header rows, gran, tz) = .error .indexNotDatetime := by
  simp only [from_api_data, parseCSV]
  rw [if_neg (by simp [htz])]
  rw [if_neg (not_not_intro hcol)]
  rw [if_neg (by simp [hlen])]
  simp only [hnum, if_true, mkColFromCells, mkAPITimeSeriesInput, validate_dataframe]

/-- Witness for C10 at a three-row CSV of numeric epoch timestamps. -/
theorem c10_numeric_timestamp_column_w :
    "UTC" ∈ allowedTimezones ∧
      from_api_data
        (.wellFormed ["timestamp", "value"]
          [[.num 1, .num 10], [.num 2, .num 20], [.num 3, .num 30]],
          "daily", "UTC") = .error .indexNotDatetime :=
  ⟨by decide,
    c10_numeric_timestamp_column _ _ _ _ (by decide) (by decide) (by decide) (by decide)⟩

/-- C9.  Value domain: for a series that passed the schema, timezone,
length and continuity checks, any null value fails with the null-value
error, any non-positive value (with no nulls) fails with the non-positive
error, and acceptance forces every value to be present and strictly
positive. -/
theorem c9_value_domain (tz name : String) (ws : List Int) (vs : List (Option ℚ))
    (hlen : 3 ≤ ws.length) (hcont : continuityCheck ws = .ok ()) :
    ((∃ v ∈ vs, v = none) →
      validate_dataframe ⟨.datetime (some tz) ws, [(name, .numeric vs)]⟩ =
        .error .valueNull) ∧
    ((∀ v ∈ vs, v ≠ none) → (∃ q : ℚ, some q ∈ vs ∧ q ≤ 0) →
      validate_dataframe ⟨.datetime (some tz) ws, [(name, .numeric vs)]⟩ =
        .error .valueNonPositive) ∧
    (validate_dataframe ⟨.datetime (some tz) ws, [(name, .numeric vs)]⟩ = .ok () →
      ∀ v ∈ vs, ∃ q : ℚ, v = some q ∧ 0 < q) := by
  simp only [validate_dataframe, List.length_cons, List.length_nil]
  rw [if_neg (by omega), if_neg (by omega), hcont]
  refine ⟨fun hnull => ?_, fun hnonull hnp => ?_, fun hok => ?_⟩
  · rw [if_pos ?_]
    obtain ⟨v, hv, rfl⟩ := hnull
    exact List.any_eq_true.mpr ⟨none, hv, rfl⟩
  · rw [if_neg ?_, if_pos ?_]
    · obtain ⟨q, hq, hq0⟩ := hnp
      exact List.any_eq_true.mpr ⟨some q, hq, by simpa using hq0⟩
    · simp only [List.any_eq_true, not_exists, not_and]
      rintro v hv
      obtain ⟨q, rfl⟩ := Option.ne_none_iff_exists'.mp (hnonull v hv)
      simp
  · intro v hv
    by_cases h1 : vs.any (fun v => v.isNone) = true
    · rw [if_pos h1] at hok; cases hok
    · rw [if_neg h1] at hok
      by_cases h2 : vs.any (fun v => match v with
          | some q => decide (q ≤ 0)
          | none => false) = true
      · rw [if_pos h2] at hok; cases hok
      · obtain ⟨q, rfl⟩ : ∃ q : ℚ, v = some q := by
          rcases v with _ | q
          · exact absurd (List.any_eq_true.mpr ⟨none, hv, rfl⟩) h1
          · exact ⟨q, rfl⟩
        refine ⟨q, rfl, ?_⟩
        by_contra hq
        exact h2 (List.any_eq_true.mpr ⟨some q, hv, by simpa using not_lt.mp hq⟩)

/-- Witness for C9: a daily series with one null value fails with the
null-value error. -/
theorem c9_value_domain_w :
    continuityCheck [0, 1440, 2880] = .ok () ∧
      validate_dataframe
        ⟨.datetime (some "UTC") [0, 1440, 2880],
          [("value", .numeric [some 1, none, some 3])]⟩ = .error .valueNull :=
  ⟨by decide,
    (c9_value_domain "UTC" "value" [0, 1440, 2880] [some 1, none, some 3]
      (by decide) (by decide)).1 ⟨none, by decide, rfl⟩⟩

/-- The three-point grid of a fixed positive step. -/
theorem dateRange_step3 (w0 d : Int) (hd : 0 < d) :
    dateRange (.step d) w0 (w0 + 2 * d) = [w0, w0 + d, w0 + 2 * d] := by
  simp only [dateRange, rollForward]
  obtain ⟨m, hm⟩ : ∃ m : Nat, (w0 + 2 * d + 1 - w0).toNat = m + 3 :=
    ⟨(w0 + 2 * d + 1 - w0).toNat - 3, by omega⟩
  rw [hm]
  have hend : dateRangeGo (.step d) (w0 + d + d + d) (w0 + 2 * d) m = [] := by
    cases m with
    | zero => rfl
    | succ m => rw [dateRangeGo, if_pos (by omega)]
  rw [dateRangeGo, if_neg (by omega)]
  simp only [freqStep]
  rw [if_neg (by omega), dateRangeGo, if_neg (by omega)]
  simp only [freqStep]
  rw [if_neg (by omega), dateRangeGo, if_neg (by omega)]
  simp only [freqStep]
  rw [if_neg (by omega), hend]
  have h1 : w0 + d + d = w0 + 2 * d := by ring
  rw [h1]

/-- C4.  Length boundary: a series of exactly 3 uniformly spaced points
with valid values is accepted, and every series of fewer than 3 points is
rejected by the length check — the error is the too-few-points one, so
frequency inference is never reached on 1 or 2 points. -/
theorem c4_length_boundary :
    (∀ (w0 d : Int) (tz name : String) (q1 q2 q3 : ℚ),
      0 < d → 0 < q1 → 0 < q2 → 0 < q3 →
      validate_dataframe
        ⟨.datetime (some tz) [w0, w0 + d, w0 + 2 * d],
          [(name, .numeric [some q1, some q2, some q3])]⟩ = .ok ()) ∧
    (∀ (tz name : String) (ws : List Int) (c : ColData), ws.length < 3 →
      validate_dataframe ⟨.datetime (some tz) ws, [(name, c)]⟩ =
        .error .tooFewPoints) := by
  constructor
  · intro w0 d tz name q1 q2 q3 hd h1 h2 h3
    have hdel : deltas [w0, w0 + d, w0 + 2 * d] = [d, d] := by
      simp only [deltas, List.tail_cons, List.zipWith_cons_cons, List.zipWith_nil_right,
        List.cons.injEq, and_true]
      exact ⟨by ring, by ring⟩
    have hinf : inferFreq [w0, w0 + d, w0 + 2 * d] = some (.step d) := by
      rw [inferFreq, if_neg (by simp)]
      rw [if_neg ?_, hdel]
      · simp only [allEqual, List.all_cons, List.all_nil, decide_eq_true_eq]
        rw [if_pos (by simp)]
      · simp only [strictlyIncreasing, hdel, List.all_cons, List.all_nil, Bool.and_true,
          Bool.and_eq_true, decide_eq_true_eq, not_not]
        exact ⟨hd, hd⟩
    have hmin : listMin [w0, w0 + d, w0 + 2 * d] = w0 := by
      simp only [listMin, List.foldl_cons, List.foldl_nil]
      omega
    have hmax : listMax [w0, w0 + d, w0 + 2 * d] = w0 + 2 * d := by
      simp only [listMax, List.foldl_cons, List.foldl_nil]
      omega
    have hcont : continuityCheck [w0, w0 + d, w0 + 2 * d] = .ok () := by
      simp only [continuityCheck, hinf, hmin, hmax, dateRange_step3 w0 d hd, if_true]
    simp only [validate_dataframe, List.length_cons, List.length_nil]
    rw [if_neg (by omega), if_neg (by omega), hcont]
    rw [if_neg (by simp), if_neg ?_]
    simp only [List.any_cons, List.any_nil, Bool.or_eq_true, decide_eq_true_eq, Bool.or_false,
      not_or]
    exact ⟨not_le.mpr h1, not_le.mpr h2, not_le.mpr h3⟩
  · intro tz name ws c hlen
    simp only [validate_dataframe, List.length_cons, List.length_nil]
    rw [if_neg (by omega), if_pos hlen]

/-- Witness for C4: three daily points are accepted; two points are
rejected with the too-few-points error. -/
theorem c4_length_boundary_w :
    (0 : Int) < 1440 ∧ (0 : ℚ) < 1 ∧
      validate_dataframe
        ⟨.datetime (some "UTC") [0, 0 + 1440, 0 + 2 * 1440],
          [("value", .numeric [some 1, some 1, some 1])]⟩ = .ok () ∧
      validate_dataframe
        ⟨.datetime (some "UTC") [0, 1440], [("value", .numeric [some 1, some 2])]⟩ =
        .error .tooFewPoints :=
  ⟨by decide, by decide,
    c4_length_boundary.1 0 1440 "UTC" "value" 1 1 1 (by decide) (by decide) (by decide)
      (by decide),
    c4_length_boundary.2 "UTC" "value" [0, 1440] (.numeric [some 1, some 2]) (by decide)⟩

/-- `Except.map` hits `.ok` exactly when its argument does. -/
theorem except_map_ok {ε α β : Type} (f : α → β) (x : Except ε α) (y : β) :
    x.map f = .ok y ↔ ∃ z, x = .ok z ∧ y = f z := by
  cases x <;> simp [Except.map, eq_comm]

/-- C5 counterexample: the code chooses the branch from the first element
and applies it to the whole column, so a column whose first element carries
an offset while later elements do not is NOT resolved element by element:
the offset-free rows are read as UTC instants instead of declared-zone wall
times (declared zone Europe/Paris, offset +60). -/
theorem c5_counterexample :
    resolveTimestamps [.ts 0 (some 0), .ts 120 none, .ts 240 none] "Europe/Paris" =
      .ok [60, 180, 300] ∧
    resolveTimestampsPerElement "Europe/Paris" [.ts 0 (some 0), .ts 120 none, .ts 240 none] =
      .ok [60, 120, 240] ∧
    resolveTimestamps [.ts 0 (some 0), .ts 120 none, .ts 240 none] "Europe/Paris" ≠
      resolveTimestampsPerElement "Europe/Paris"
        [.ts 0 (some 0), .ts 120 none, .ts 240 none] := by
  decide

/-- C5 amended: the branch is chosen once, from the first element's textual
form, and applied to the whole column.  If the first element carries an
offset, every row is read as an absolute instant (offset-free rows assumed
UTC) and converted into the declared zone; if the first element is
offset-free, every row must be offset-free (otherwise the parse raises) and
is tagged in the declared zone without conversion. -/
theorem c5_amended (cs : List Cell) (tz : String) (ws : List Int) :
    resolveTimestamps cs tz = .ok ws ↔
      ((firstElemHasOffset cs = true ∧
          List.Forall₂ (fun c w =>
            (∃ wl o, c = Cell.ts wl (some o) ∧ w = wl - o + tzOffsetMinutes tz) ∨
            (∃ wl, c = Cell.ts wl none ∧ w = wl + tzOffsetMinutes tz)) cs ws) ∨
        (firstElemHasOffset cs = false ∧
          List.Forall₂ (fun c w => c = Cell.ts w none) cs ws)) := by
  have hutc : ∀ (cs : List Cell) (ws : List Int),
      toDatetimeUTC tz cs = .ok ws ↔
        List.Forall₂ (fun c w =>
          (∃ wl o, c = Cell.ts wl (some o) ∧ w = wl - o + tzOffsetMinutes tz) ∨
          (∃ wl, c = Cell.ts wl none ∧ w = wl + tzOffsetMinutes tz)) cs ws := by
    intro cs
    induction cs with
    | nil =>
      intro ws
      constructor
      · intro h
        cases ws with
        | nil => exact List.Forall₂.nil
        | cons w ws => exact absurd h (by simp [toDatetimeUTC])
      · intro h
        cases h
        rfl
    | cons c cs ih =>
      intro ws
      cases c with
      | ts wl off =>
        cases off with
        | some o =>
          rw [show toDatetimeUTC tz (Cell.ts wl (some o) :: cs) =
              (toDatetimeUTC tz cs).map
                (fun l => (wl - o + tzOffsetMinutes tz) :: l) from rfl]
          rw [except_map_ok, List.forall₂_cons_left_iff]
          constructor
          · rintro ⟨z, hz, rfl⟩
            exact ⟨_, z, Or.inl ⟨wl, o, rfl, rfl⟩, (ih z).mp hz, rfl⟩
          · rintro ⟨w, ws', hrel, hf, rfl⟩
            rcases hrel with ⟨wl', o', heq, rfl⟩ | ⟨wl', heq, rfl⟩
            · cases heq
              exact ⟨ws', (ih ws').mpr hf, rfl⟩
            · exact absurd heq (by simp)
        | none =>
          rw [show toDatetimeUTC tz (Cell.ts wl none :: cs) =
              (toDatetimeUTC tz cs).map
                (fun l => (wl + tzOffsetMinutes tz) :: l) from rfl]
          rw [except_map_ok, List.forall₂_cons_left_iff]
          constructor
          · rintro ⟨z, hz, rfl⟩
            exact ⟨_, z, Or.inr ⟨wl, rfl, rfl⟩, (ih z).mp hz, rfl⟩
          · rintro ⟨w, ws', hrel, hf, rfl⟩
            rcases hrel with ⟨wl', o', heq, rfl⟩ | ⟨wl', heq, rfl⟩
            · exact absurd heq (by simp)
            · cases heq
              exact ⟨ws', (ih ws').mpr hf, rfl⟩
      | num q =>
        simp only [toDatetimeUTC, List.forall₂_cons_left_iff]
        constructor
        · intro h
          cases h
        · rintro ⟨w, ws', hrel, -, rfl⟩
          rcases hrel with ⟨wl', o', heq, -⟩ | ⟨wl', heq, -⟩ <;> exact absurd heq (by simp)
      | na =>
        simp only [toDatetimeUTC, List.forall₂_cons_left_iff]
        constructor
        · intro h
          cases h
        · rintro ⟨w, ws', hrel, -, rfl⟩
          rcases hrel with ⟨wl', o', heq, -⟩ | ⟨wl', heq, -⟩ <;> exact absurd heq (by simp)
      | other s =>
        simp only [toDatetimeUTC, List.forall₂_cons_left_iff]
        constructor
        · intro h
          cases h
        · rintro ⟨w, ws', hrel, -, rfl⟩
          rcases hrel with ⟨wl', o', heq, -⟩ | ⟨wl', heq, -⟩ <;> exact absurd heq (by simp)
  have hloc : ∀ (cs : List Cell) (ws : List Int),
      toDatetimeLocalize cs = .ok ws ↔
        List.Forall₂ (fun c w => c = Cell.ts w none) cs ws := by
    intro cs
    induction cs with
    | nil =>
      intro ws
      constructor
      · intro h
        cases ws with
        | nil => exact List.Forall₂.nil
        | cons w ws => exact absurd h (by simp [toDatetimeLocalize])
      · intro h
        cases h
        rfl
    | cons c cs ih =>
      intro ws
      cases c with
      | ts wl off =>
        cases off with
        | some o =>
          simp only [toDatetimeLocalize, List.forall₂_cons_left_iff]
          constructor
          · intro h
            cases h
          · rintro ⟨w, ws', heq, -, rfl⟩
            exact absurd heq (by simp)
        | none =>
          rw [show toDatetimeLocalize (Cell.ts wl none :: cs) =
              (toDatetimeLocalize cs).map (fun l => wl :: l) from rfl]
          rw [except_map_ok, List.forall₂_cons_left_iff]
          constructor
          · rintro ⟨z, hz, rfl⟩
            exact ⟨wl, z, rfl, (ih z).mp hz, rfl⟩
          · rintro ⟨w, ws', heq, hf, rfl⟩
            cases heq
            exact ⟨ws', (ih ws').mpr hf, rfl⟩
      | num q =>
        simp only [toDatetimeLocalize, List.forall₂_cons_left_iff]
        constructor
        · intro h
          cases h
        · rintro ⟨w, ws', heq, -, rfl⟩
          exact absurd heq (by simp)
      | na =>
        simp only [toDatetimeLocalize, List.forall₂_cons_left_iff]
        constructor
        · intro h
          cases h
        · rintro ⟨w, ws', heq, -, rfl⟩
          exact absurd heq (by simp)
      | other s =>
        simp only [toDatetimeLocalize, List.forall₂_cons_left_iff]
        constructor
        · intro h
          cases h
        · rintro ⟨w, ws', heq, -, rfl⟩
          exact absurd heq (by simp)
  rw [resolveTimestamps]
  cases hf : firstElemHasOffset cs with
  | true =>
    rw [if_pos rfl, hutc]
    simp
  | false =>
    rw [if_neg (by simp), hloc]
    simp

/-- C6 counterexample: a series with a uniform hourly cadence declared as
`daily` is accepted outright — the continuity check never consults the
declared granularity's mapped frequency, so no `ContinuityError` is
raised. -/
theorem c6_counterexample :
    from_api_data
      (.wellFormed ["timestamp", "value"]
        [[.ts 0 none, .num 1], [.ts 60 none, .num 2], [.ts 120 none, .num 3]],
        "daily", "UTC") =
      .ok ⟨⟨.datetime (some "UTC") [0, 60, 120],
        [("value", .numeric [some 1, some 2, some 3])]⟩, "daily", "UTC"⟩ := by
  decide

/-- C6 amended: the continuity check derives its grid only from the
frequency inferred from the index; the declared granularity is checked just
for membership in the enumeration, so the validation outcome is the same
under any supported declared granularity (in particular a cadence/
granularity mismatch is accepted, not rejected). -/
theorem c6_amended (df : DataFrame) (tz g g' : String)
    (hg : (granularityFreqMap.lookup g).isSome = true)
    (hg' : (granularityFreqMap.lookup g').isSome = true) :
    (mkAPITimeSeriesInput df g tz).isOk = (mkAPITimeSeriesInput df g' tz).isOk := by
  simp only [mkAPITimeSeriesInput]
  cases validate_dataframe df with
  | error e => rfl
  | ok _ =>
    have h1 : (granularityFreqMap.lookup g).isNone = false := by
      cases h : granularityFreqMap.lookup g
      · rw [h] at hg
        cases hg
      · rfl
    have h2 : (granularityFreqMap.lookup g').isNone = false := by
      cases h : granularityFreqMap.lookup g'
      · rw [h] at hg'
        cases hg'
      · rfl
    by_cases htz : tz ∈ allowedTimezones
    · simp [h1, h2, htz, Except.isOk, Except.toBool]
    · simp [h1, h2, htz]

/-- Witness for C6 amended: an hourly-cadence frame validates identically
under declared granularities `hourly` and `daily`. -/
theorem c6_amended_w :
    (granularityFreqMap.lookup "hourly").isSome = true ∧
    (granularityFreqMap.lookup "daily").isSome = true ∧
    (mkAPITimeSeriesInput
        ⟨.datetime (some "UTC") [0, 60, 120],
          [("value", .numeric [some 1, some 2, some 3])]⟩ "hourly" "UTC").isOk =
      (mkAPITimeSeriesInput
        ⟨.datetime (some "UTC") [0, 60, 120],
          [("value", .numeric [some 1, some 2, some 3])]⟩ "daily" "UTC").isOk :=
  ⟨by decide, by decide,
    c6_amended ⟨.datetime (some "UTC") [0, 60, 120],
      [("value", .numeric [some 1, some 2, some 3])]⟩ "UTC" "hourly" "daily"
      (by decide) (by decide)⟩

/-- C8 counterexample: the enumeration maps `monthly` to the pandas token
`"M"`, which is the month-END anchored monthly step, not a month-start one:
from 1970-01-01 the `"M"` grid up to 1970-03-01 is [1970-01-31, 1970-02-28]
(walls 43200, 83520), not the month starts [0, 44640, 84960]. -/
theorem c8_counterexample :
    granularityFreqMap.lookup "monthly" = some "M" ∧
    pandasFreqOfToken "M" = some (.monthEnd 1) ∧
    pandasFreqOfToken "M" ≠ some (.monthStart 1) ∧
    dateRange (.monthEnd 1) 0 84960 = [43200, 83520] ∧
    dateRange (.monthEnd 1) 0 84960 ≠ [0, 44640, 84960] := by
  decide

/-- C8 amended: the enumeration maps hourly to `"H"` (a 1-hour step) and
daily to `"D"` (a 1-day step) as claimed, but monthly to `"M"`, a
1-calendar-month step anchored to month END; a monthly series of
month-start timestamps is nonetheless accepted, because the continuity
check reconstructs its grid from the index-inferred (month-start)
frequency, never from the mapped token. -/
theorem c8_amended :
    granularityFreqMap = [("hourly", "H"), ("daily", "D"), ("monthly", "M")] ∧
    pandasFreqOfToken "H" = some (.step 60) ∧
    pandasFreqOfToken "D" = some (.step 1440) ∧
    pandasFreqOfToken "M" = some (.monthEnd 1) ∧
    from_api_data
      (.wellFormed ["timestamp", "value"]
        [[.ts 0 none, .num 1], [.ts 44640 none, .num 2], [.ts 84960 none, .num 3]],
        "monthly", "UTC") =
      .ok ⟨⟨.datetime (some "UTC") [0, 44640, 84960],
        [("value", .numeric [some 1, some 2, some 3])]⟩, "monthly", "UTC"⟩ := by
  decide

/-- `deltas` of a list with at least two elements peels off the first
difference. -/
theorem deltas_cons (x y : Int) (t : List Int) :
    deltas (x :: y :: t) = (y - x) :: deltas (y :: t) := rfl

/-- Membership in `deltas` is preserved by consing an element in front. -/
theorem mem_deltas_cons {d : Int} (x : Int) {l : List Int} (h : d ∈ deltas l) :
    d ∈ deltas (x :: l) := by
  cases l with
  | nil => simp [deltas] at h
  | cons y t =>
    rw [deltas_cons]
    exact List.mem_cons_of_mem _ h

/-- The difference across any adjacent pair occurs in `deltas`. -/
theorem deltas_mem_middle (l₁ l₂ : List Int) (a b : Int) :
    (b - a) ∈ deltas (l₁ ++ a :: b :: l₂) := by
  induction l₁ with
  | nil =>
    rw [List.nil_append, deltas_cons]
    exact List.mem_cons_self _ _
  | cons x l₁ ih =>
    rw [List.cons_append]
    exact mem_deltas_cons x ih

/-- C7 counterexample: a regular daily series with one timestamp duplicated
fails with the step-1 inference error ("frequency could not be inferred"),
not the step-3 grid-equality error ("missing dates") the claim names. -/
theorem c7_counterexample :
    from_api_data
      (.wellFormed ["timestamp", "value"]
        [[.ts 0 none, .num 5], [.ts 1440 none, .num 6],
         [.ts 1440 none, .num 7], [.ts 2880 none, .num 8]],
        "daily", "UTC") = .error .freqNotInferred ∧
    IngestError.freqNotInferred ≠ IngestError.missingDates := by
  decide

/-- C7 amended: for every regular series with one timestamp duplicated
(the duplicate row adjacent to the original, values free to differ),
ingestion fails with the `ContinuityError` of step 1 — the duplicate makes
the index non-monotonic/non-unique so frequency inference fails — rather
than the step-3 grid-equality branch. -/
theorem c7_amended (tz name : String) (vs : List (Option ℚ)) (l₁ l₂ : List Int)
    (w d : Int)
    (hreg : deltas (l₁ ++ w :: l₂) =
      List.replicate ((l₁ ++ w :: l₂).length - 1) d)
    (hd : 0 < d) (hlen : 3 ≤ (l₁ ++ w :: l₂).length) :
    validate_dataframe
      ⟨.datetime (some tz) (l₁ ++ w :: w :: l₂), [(name, .numeric vs)]⟩ =
      .error .freqNotInferred := by
  have hlen2 : (l₁ ++ w :: w :: l₂).length = (l₁ ++ w :: l₂).length + 1 := by
    simp only [List.length_append, List.length_cons]
    omega
  have h0 : (0 : Int) ∈ deltas (l₁ ++ w :: w :: l₂) := by
    simpa using deltas_mem_middle l₁ l₂ w w
  have hsi : ¬ (strictlyIncreasing (l₁ ++ w :: w :: l₂) = true) := by
    intro h
    have := List.all_eq_true.mp h 0 h0
    simp at this
  have hinf : inferFreq (l₁ ++ w :: w :: l₂) = none := by
    rw [inferFreq, if_neg (by omega), if_pos hsi]
  simp only [validate_dataframe, List.length_cons, List.length_nil]
  rw [if_neg (by omega), if_neg (by omega), continuityCheck, hinf]

/-- Witness for C7 amended at a duplicated daily series. -/
theorem c7_amended_w :
    deltas ([0] ++ 1440 :: [2880]) =
      List.replicate (([0] ++ 1440 :: [2880]).length - 1) 1440 ∧
    validate_dataframe
      ⟨.datetime (some "UTC") ([0] ++ 1440 :: 1440 :: [2880]),
        [("value", .numeric [some 1, some 2, some 3, some 4])]⟩ =
      .error .freqNotInferred :=
  ⟨by decide,
    c7_amended "UTC" "value" [some 1, some 2, some 3, some 4] [0] [2880] 1440 1440
      (by decide) (by decide) (by decide)⟩

/-- Every month is between 28 and 31 days long. -/
theorem monthLen_bounds (mi : Int) : 28 ≤ monthLen mi ∧ monthLen mi ≤ 31 := by
  simp only [monthLen]
  split_ifs <;> omega

/-- `daysBeforeMonth` advances by the month length. -/
theorem daysBeforeMonth_succ (mi : Int) :
    daysBeforeMonth (mi + 1) = daysBeforeMonth mi + monthLen mi := by
  cases mi with
  | ofNat n =>
    have h : (Int.ofNat n) + 1 = Int.ofNat (n + 1) := rfl
    rw [h]
    show daysBeforeMonthNat (n + 1) = daysBeforeMonthNat n + monthLen n
    rfl
  | negSucc n =>
    cases n with
    | zero =>
      show daysBeforeMonth 0 = daysBeforeMonthNegNat 1 + monthLen (Int.negSucc 0)
      show (0 : Int) = (daysBeforeMonthNegNat 0 - monthLen (-(1 : Int))) + monthLen (Int.negSucc 0)
      have h : (-(1 : Int)) = Int.negSucc 0 := rfl
      rw [h]
      show (0 : Int) = (0 - monthLen (Int.negSucc 0)) + monthLen (Int.negSucc 0)
      ring
    | succ n =>
      have h : Int.negSucc (n + 1) + 1 = Int.negSucc n := by
        rw [Int.negSucc_eq, Int.negSucc_eq]
        push_cast
        ring
      rw [h]
      show daysBeforeMonthNegNat (n + 1) =
        daysBeforeMonthNegNat (n + 2) + monthLen (Int.negSucc (n + 1))
      have h2 : daysBeforeMonthNegNat (n + 2) =
          daysBeforeMonthNegNat (n + 1) - monthLen (-(n + 2 : Int)) := rfl
      have h3 : (-(n + 2 : Int)) = Int.negSucc (n + 1) := by
        rw [Int.negSucc_eq]
        push_cast
        ring
      rw [h2, h3]
      ring

/-- A span of `k` months covers between `28 k` and `31 k` days. -/
theorem daysBeforeMonth_span (mi : Int) (k : Nat) :
    28 * (k : Int) ≤ daysBeforeMonth (mi + k) - daysBeforeMonth mi ∧
      daysBeforeMonth (mi + k) - daysBeforeMonth mi ≤ 31 * (k : Int) := by
  induction k with
  | zero => simp
  | succ k ih =>
    have h : mi + ((k : Int) + 1) = (mi + k) + 1 := by ring
    have hs := daysBeforeMonth_succ (mi + k)
    have hb := monthLen_bounds (mi + k)
    push_cast
    push_cast at ih
    rw [h, hs]
    constructor <;> [linarith; linarith]

/-- The span version for an integer month count `k ≥ 0`. -/
theorem daysBeforeMonth_span_int (mi k : Int) (hk : 0 ≤ k) :
    28 * k ≤ daysBeforeMonth (mi + k) - daysBeforeMonth mi ∧
      daysBeforeMonth (mi + k) - daysBeforeMonth mi ≤ 31 * k := by
  obtain ⟨n, rfl⟩ := Int.eq_ofNat_of_zero_le hk
  exact daysBeforeMonth_span mi n

/-- If `monthStartIdx?` answers, the wall is exactly the month's first day
at its minute of day. -/
theorem monthStartIdx_eq {w : Int} {mi : Int} (h : monthStartIdx? w = some mi) :
    w = 1440 * daysBeforeMonth mi + wallTod w ∧ 0 ≤ wallTod w ∧ wallTod w < 1440 := by
  simp only [monthStartIdx?] at h
  split_ifs at h with hd
  · cases h
    have h1 : w = 1440 * wallDay w + wallTod w := by
      rw [wallDay, wallTod]
      omega
    rw [hd]
    refine ⟨h1, ?_, ?_⟩ <;> rw [wallTod] <;> omega

/-- If `monthEndIdx?` answers, the wall is exactly the month's last day at
its minute of day. -/
theorem monthEndIdx_eq {w : Int} {mi : Int} (h : monthEndIdx? w = some mi) :
    w = 1440 * (daysBeforeMonth (mi + 1) - 1) + wallTod w ∧
      0 ≤ wallTod w ∧ wallTod w < 1440 := by
  simp only [monthEndIdx?] at h
  split_ifs at h with hd
  · cases h
    have h1 : w = 1440 * wallDay w + wallTod w := by
      rw [wallDay, wallTod]
      omega
    rw [hd]
    refine ⟨h1, ?_, ?_⟩ <;> rw [wallTod] <;> omega

/-- A consecutive pair recognised by `monthDiff?` with distance `k ≥ 1`
spans between `1440·28·k` and `1440·31·k` minutes. -/
theorem monthDiff_span {a b k : Int} (h : monthDiff? a b = some k) (hk : 1 ≤ k) :
    1440 * (28 * k) ≤ b - a ∧ b - a ≤ 1440 * (31 * k) := by
  rw [monthDiff?] at h
  cases hma : monthStartIdx? a with
  | none => rw [hma] at h; cases h
  | some ma =>
    cases hmb : monthStartIdx? b with
    | none => rw [hma, hmb] at h; cases h
    | some mb =>
      rw [hma, hmb] at h
      split_ifs at h with ht
      · cases h
        obtain ⟨ha, -, -⟩ := monthStartIdx_eq hma
        obtain ⟨hb, -, -⟩ := monthStartIdx_eq hmb
        have hmb' : mb = ma + (mb - ma) := by ring
        have hspan := daysBeforeMonth_span_int ma (mb - ma) (by omega)
        rw [hmb'] at hb
        rw [ha, hb, ht]
        constructor <;> nlinarith [hspan.1, hspan.2]

/-- A consecutive pair recognised by `monthEndDiff?` with distance `k ≥ 1`
spans between `1440·28·k` and `1440·31·k` minutes. -/
theorem monthEndDiff_span {a b k : Int} (h : monthEndDiff? a b = some k) (hk : 1 ≤ k) :
    1440 * (28 * k) ≤ b - a ∧ b - a ≤ 1440 * (31 * k) := by
  rw [monthEndDiff?] at h
  cases hma : monthEndIdx? a with
  | none => rw [hma] at h; cases h
  | some ma =>
    cases hmb : monthEndIdx? b with
    | none => rw [hma, hmb] at h; cases h
    | some mb =>
      rw [hma, hmb] at h
      split_ifs at h with ht
      · cases h
        obtain ⟨ha, -, -⟩ := monthEndIdx_eq hma
        obtain ⟨hb, -, -⟩ := monthEndIdx_eq hmb
        have hmb' : mb + 1 = (ma + 1) + (mb - ma) := by ring
        have hspan := daysBeforeMonth_span_int (ma + 1) (mb - ma) (by omega)
        rw [hmb'] at hb
        rw [ha, hb, ht]
        constructor <;> nlinarith [hspan.1, hspan.2]

/-- `allEqual` answers only the common value of the list. -/
theorem allEqual_some {l : List Int} {c : Int} (h : allEqual l = some c) :
    ∀ x ∈ l, x = c := by
  cases l with
  | nil => cases h
  | cons y ys =>
    rw [allEqual] at h
    split_ifs at h with hall
    · cases h
      intro x hx
      rcases List.mem_cons.mp hx with rfl | hx
      · rfl
      · simpa using List.all_eq_true.mp hall x hx

/-- `allSome` answers only when the list is fully defined. -/
theorem allSome_eq {α : Type} {l : List (Option α)} {l' : List α}
    (h : allSome l = some l') : l = l'.map some := by
  induction l generalizing l' with
  | nil =>
    rw [allSome] at h
    cases h
    rfl
  | cons o rest ih =>
    cases o with
    | none => cases h
    | some a =>
      rw [allSome] at h
      cases hrest : allSome rest with
      | none =>
        rw [hrest] at h
        cases h
      | some t =>
        rw [hrest, Option.map_some'] at h
        cases h
        rw [List.map_cons, ih hrest]

/-- The difference across any adjacent pair occurs in `deltas` (getD form). -/
theorem getD_diff_mem_deltas (l : List Int) (j : Nat) (h : j + 1 < l.length) :
    l.getD (j + 1) 0 - l.getD j 0 ∈ deltas l := by
  have hdl : j < (deltas l).length := by
    simp only [deltas, List.length_zipWith, List.length_tail]
    omega
  have e : (deltas l)[j] = l[j + 1] - l[j] := by
    simp only [deltas, List.getElem_zipWith, List.getElem_tail]
  rw [List.getD_eq_getElem _ _ (by omega : j + 1 < l.length),
    List.getD_eq_getElem _ _ (by omega : j < l.length), ← e]
  exact List.getElem_mem hdl

/-- `monthStartRule` answers only when every adjacent pair is the same
`k ≥ 1` months apart in the sense of `monthDiff?`. -/
theorem monthStartRule_pairs {ws : List Int} {k : Int}
    (h : monthStartRule ws = some k) :
    1 ≤ k ∧ ∀ j : Nat, j + 1 < ws.length →
      monthDiff? (ws.getD j 0) (ws.getD (j + 1) 0) = some k := by
  rw [monthStartRule] at h
  cases hz : allSome (List.zipWith monthDiff? ws ws.tail) with
  | none =>
    rw [hz] at h
    cases h
  | some ks =>
    rw [hz] at h
    replace h : (match allEqual ks with
      | some k => if 1 ≤ k then some k else none
      | none => none) = some k := h
    cases he : allEqual ks with
    | none =>
      rw [he] at h
      cases h
    | some c =>
      rw [he] at h
      replace h : (if 1 ≤ c then some c else none) = some k := h
      split_ifs at h with hk1
      · cases h
        refine ⟨hk1, fun j hj => ?_⟩
        have hzl := allSome_eq hz
        have hlen : ks.length = ws.length - 1 := by
          have := congrArg List.length hzl
          simp only [List.length_map, List.length_zipWith, List.length_tail] at this
          omega
        have hjz : j < (List.zipWith monthDiff? ws ws.tail).length := by
          simp only [List.length_zipWith, List.length_tail]
          omega
        have hjk : j < ks.length := by omega
        have htl : j < ws.tail.length := by
          simp only [List.length_tail]
          omega
        have e1 : (List.zipWith monthDiff? ws ws.tail)[j] =
            monthDiff? (ws[j]) (ws.tail[j]) := List.getElem_zipWith
        have e2 : (List.zipWith monthDiff? ws ws.tail)[j] = some (ks[j]) := by
          have := List.get_of_eq hzl ⟨j, hjz⟩
          simpa [List.get_eq_getElem, List.getElem_map] using this
        have e3 : ks[j] = k := allEqual_some he _ (List.getElem_mem hjk)
        rw [List.getD_eq_getElem _ _ (by omega : j < ws.length),
          List.getD_eq_getElem _ _ (by omega : j + 1 < ws.length)]
        rw [← List.getElem_tail ws j htl, ← e1, e2, e3]

/-- `monthEndRule` answers only when every adjacent pair is the same
`k ≥ 1` months apart in the sense of `monthEndDiff?`. -/
theorem monthEndRule_pairs {ws : List Int} {k : Int}
    (h : monthEndRule ws = some k) :
    1 ≤ k ∧ ∀ j : Nat, j + 1 < ws.length →
      monthEndDiff? (ws.getD j 0) (ws.getD (j + 1) 0) = some k := by
  rw [monthEndRule] at h
  cases hz : allSome (List.zipWith monthEndDiff? ws ws.tail) with
  | none =>
    rw [hz] at h
    cases h
  | some ks =>
    rw [hz] at h
    replace h : (match allEqual ks with
      | some k => if 1 ≤ k then some k else none
      | none => none) = some k := h
    cases he : allEqual ks with
    | none =>
      rw [he] at h
      cases h
    | some c =>
      rw [he] at h
      replace h : (if 1 ≤ c then some c else none) = some k := h
      split_ifs at h with hk1
      · cases h
        refine ⟨hk1, fun j hj => ?_⟩
        have hzl := allSome_eq hz
        have hlen : ks.length = ws.length - 1 := by
          have := congrArg List.length hzl
          simp only [List.length_map, List.length_zipWith, List.length_tail] at this
          omega
        have hjz : j < (List.zipWith monthEndDiff? ws ws.tail).length := by
          simp only [List.length_zipWith, List.length_tail]
          omega
        have hjk : j < ks.length := by omega
        have htl : j < ws.tail.length := by
          simp only [List.length_tail]
          omega
        have e1 : (List.zipWith monthEndDiff? ws ws.tail)[j] =
            monthEndDiff? (ws[j]) (ws.tail[j]) := List.getElem_zipWith
        have e2 : (List.zipWith monthEndDiff? ws ws.tail)[j] = some (ks[j]) := by
          have := List.get_of_eq hzl ⟨j, hjz⟩
          simpa [List.get_eq_getElem, List.getElem_map] using this
        have e3 : ks[j] = k := allEqual_some he _ (List.getElem_mem hjk)
        rw [List.getD_eq_getElem _ _ (by omega : j < ws.length),
          List.getD_eq_getElem _ _ (by omega : j + 1 < ws.length)]
        rw [← List.getElem_tail ws j htl, ← e1, e2, e3]

/-- Removing one interior element from a uniform-cadence series defeats
frequency inference: the fixed-step rule sees two distinct deltas, and the
monthly calendar rules cannot match because a `k`-month span is pinned
between `28k` and `31k` days while the broken series would need spans `d`
and `2d` for the same `k`. -/
theorem inferFreq_remove_middle (l₁ l₂ : List Int) (x d : Int)
    (hreg : deltas (l₁ ++ x :: l₂) =
      List.replicate ((l₁ ++ x :: l₂).length - 1) d)
    (hd : 0 < d) (hlen : 4 ≤ (l₁ ++ x :: l₂).length)
    (h₁ : l₁ ≠ []) (h₂ : l₂ ≠ []) :
    inferFreq (l₁ ++ l₂) = none := by
  have ha : 1 ≤ l₁.length := List.length_pos.mpr h₁
  have hb : 1 ≤ l₂.length := List.length_pos.mpr h₂
  have hws : (l₁ ++ x :: l₂).length = l₁.length + l₂.length + 1 := by
    simp only [List.length_append, List.length_cons]
    omega
  have hws2 : (l₁ ++ l₂).length = l₁.length + l₂.length := by
    simp only [List.length_append]
  have hF1 : ∀ j : Nat, j + 1 < l₁.length + l₂.length + 1 →
      (l₁ ++ x :: l₂).getD (j + 1) 0 - (l₁ ++ x :: l₂).getD j 0 = d := by
    intro j hj
    have hjlen : j + 1 < (l₁ ++ x :: l₂).length := by omega
    have hdl : j < (deltas (l₁ ++ x :: l₂)).length := by
      simp only [deltas, List.length_zipWith, List.length_tail]
      omega
    have htl : j < (l₁ ++ x :: l₂).tail.length := by
      simp only [List.length_tail]
      omega
    have e : (deltas (l₁ ++ x :: l₂))[j] =
        (l₁ ++ x :: l₂)[j + 1] - (l₁ ++ x :: l₂)[j] := by
      simp only [deltas, List.getElem_zipWith, List.getElem_tail]
    have e2 : (deltas (l₁ ++ x :: l₂))[j] = d := by
      simp only [hreg, List.getElem_replicate]
    rw [List.getD_eq_getElem _ _ (by omega : j + 1 < (l₁ ++ x :: l₂).length),
      List.getD_eq_getElem _ _ (by omega : j < (l₁ ++ x :: l₂).length)]
    omega
  have hlt : ∀ j : Nat, j < l₁.length →
      (l₁ ++ l₂).getD j 0 = (l₁ ++ x :: l₂).getD j 0 := by
    intro j hjl
    rw [List.getD_eq_getElem _ _ (by omega : j < (l₁ ++ l₂).length),
      List.getD_eq_getElem _ _ (by omega : j < (l₁ ++ x :: l₂).length),
      List.getElem_append_left hjl, List.getElem_append_left hjl]
  have hge : ∀ j : Nat, l₁.length ≤ j → j < l₁.length + l₂.length →
      (l₁ ++ l₂).getD j 0 = (l₁ ++ x :: l₂).getD (j + 1) 0 := by
    intro j hjl hju
    rw [List.getD_eq_getElem _ _ (by omega : j < (l₁ ++ l₂).length),
      List.getD_eq_getElem _ _ (by omega : j + 1 < (l₁ ++ x :: l₂).length),
      List.getElem_append_right hjl, List.getElem_append_right (by omega : l₁.length ≤ j + 1)]
    have hix : j + 1 - l₁.length = (j - l₁.length) + 1 := by omega
    simp only [hix, List.getElem_cons_succ]
  have h2d : (l₁ ++ l₂).getD l₁.length 0 - (l₁ ++ l₂).getD (l₁.length - 1) 0 = 2 * d := by
    rw [hge l₁.length (by omega) (by omega), hlt (l₁.length - 1) (by omega)]
    have e1 := hF1 l₁.length (by omega)
    have e2 := hF1 (l₁.length - 1) (by omega)
    rw [show l₁.length - 1 + 1 = l₁.length from by omega] at e2
    omega
  have hdd : ∃ p, p + 1 < l₁.length + l₂.length ∧
      (l₁ ++ l₂).getD (p + 1) 0 - (l₁ ++ l₂).getD p 0 = d := by
    rcases Nat.lt_or_ge 1 l₁.length with h2 | h2
    · refine ⟨0, by omega, ?_⟩
      rw [hlt 0 (by omega), hlt 1 (by omega)]
      exact hF1 0 (by omega)
    · refine ⟨1, by omega, ?_⟩
      rw [hge 1 (by omega) (by omega), hge 2 (by omega) (by omega)]
      exact hF1 2 (by omega)
  obtain ⟨p, hp, hpe⟩ := hdd
  have hmem_d : d ∈ deltas (l₁ ++ l₂) := by
    have := getD_diff_mem_deltas (l₁ ++ l₂) p (by omega)
    rwa [hpe] at this
  have hmem_2d : 2 * d ∈ deltas (l₁ ++ l₂) := by
    have := getD_diff_mem_deltas (l₁ ++ l₂) (l₁.length - 1) (by omega)
    rw [show l₁.length - 1 + 1 = l₁.length from by omega] at this
    rwa [h2d] at this
  have hae : allEqual (deltas (l₁ ++ l₂)) = none := by
    cases hc : allEqual (deltas (l₁ ++ l₂)) with
    | none => rfl
    | some c =>
      exfalso
      have e1 := allEqual_some hc _ hmem_d
      have e2 := allEqual_some hc _ hmem_2d
      omega
  have hms : monthStartRule (l₁ ++ l₂) = none := by
    cases hc : monthStartRule (l₁ ++ l₂) with
    | none => rfl
    | some k =>
      exfalso
      obtain ⟨hk1, hall⟩ := monthStartRule_pairs hc
      have hj1 := hall (l₁.length - 1) (by omega)
      rw [show l₁.length - 1 + 1 = l₁.length from by omega] at hj1
      have hs1 := monthDiff_span hj1 hk1
      rw [h2d] at hs1
      have hj2 := hall p (by omega)
      have hs2 := monthDiff_span hj2 hk1
      rw [hpe] at hs2
      omega
  have hme : monthEndRule (l₁ ++ l₂) = none := by
    cases hc : monthEndRule (l₁ ++ l₂) with
    | none => rfl
    | some k =>
      exfalso
      obtain ⟨hk1, hall⟩ := monthEndRule_pairs hc
      have hj1 := hall (l₁.length - 1) (by omega)
      rw [show l₁.length - 1 + 1 = l₁.length from by omega] at hj1
      have hs1 := monthEndDiff_span hj1 hk1
      rw [h2d] at hs1
      have hj2 := hall p (by omega)
      have hs2 := monthEndDiff_span hj2 hk1
      rw [hpe] at hs2
      omega
  rw [inferFreq, if_neg (by omega)]
  by_cases hsi : strictlyIncreasing (l₁ ++ l₂) = true
  · rw [if_neg (not_not_intro hsi), hae, hms, hme]
  · rw [if_pos hsi]

/-- C3.  Gap detection via grid equality: the continuity stage accepts an
index only when a frequency is inferred and the index equals the full
reconstructed grid element for element; consequently every uniform-cadence
series of length at least 4 with a single interior element removed fails
with a `ContinuityError` (concretely, the inference-failure branch). -/
theorem c3_gap_detection :
    (∀ ws : List Int, continuityCheck ws = .ok () →
      ∃ f, inferFreq ws = some f ∧ ws = dateRange f (listMin ws) (listMax ws)) ∧
    (∀ (tz name : String) (vs : List (Option ℚ)) (l₁ l₂ : List Int) (x d : Int),
      deltas (l₁ ++ x :: l₂) = List.replicate ((l₁ ++ x :: l₂).length - 1) d →
      0 < d → 4 ≤ (l₁ ++ x :: l₂).length → l₁ ≠ [] → l₂ ≠ [] →
      validate_dataframe
        ⟨.datetime (some tz) (l₁ ++ l₂), [(name, .numeric vs)]⟩ =
        .error .freqNotInferred) := by
  constructor
  · intro ws h
    rw [continuityCheck] at h
    cases hf : inferFreq ws with
    | none => rw [hf] at h; cases h
    | some f =>
      rw [hf] at h
      replace h : (if ws = dateRange f (listMin ws) (listMax ws) then Except.ok ()
          else Except.error IngestError.missingDates) = Except.ok () := h
      split_ifs at h with hgrid
      exact ⟨f, rfl, hgrid⟩
  · intro tz name vs l₁ l₂ x d hreg hd hlen h₁ h₂
    have ha : 1 ≤ l₁.length := List.length_pos.mpr h₁
    have hb : 1 ≤ l₂.length := List.length_pos.mpr h₂
    have hws : (l₁ ++ x :: l₂).length = l₁.length + l₂.length + 1 := by
      simp only [List.length_append, List.length_cons]
      omega
    have hws2 : (l₁ ++ l₂).length = l₁.length + l₂.length := by
      simp only [List.length_append]
    have hinf := inferFreq_remove_middle l₁ l₂ x d hreg hd hlen h₁ h₂
    simp only [validate_dataframe, List.length_cons, List.length_nil]
    rw [if_neg (by omega), if_neg (by omega), continuityCheck, hinf]

/-- Witness for C3: the continuity acceptance of a 3-point daily grid, and
the rejection of a 4-point daily series with its second point removed. -/
theorem c3_gap_detection_w :
    (∃ f, inferFreq [0, 1440, 2880] = some f ∧
      [0, 1440, 2880] = dateRange f (listMin [0, 1440, 2880]) (listMax [0, 1440, 2880])) ∧
    validate_dataframe
      ⟨.datetime (some "UTC") ([0] ++ [2880, 4320]),
        [("value", .numeric [some 1, some 2, some 3])]⟩ =
      .error .freqNotInferred :=
  ⟨c3_gap_detection.1 [0, 1440, 2880] (by decide),
    c3_gap_detection.2 "UTC" "value" [some 1, some 2, some 3] [0] [2880, 4320] 1440 1440
      (by decide) (by decide) (by decide) (by decide) (by decide)⟩

/-- Reading the timestamp column back out of a rendered CSV gives the
rendered timestamp cells. -/
theorem map_getD0_zipWith_render (off : Int) (ws : List Int) (vs : List (Option ℚ))
    (hlen : ws.length = vs.length) :
    (List.zipWith (fun w v => [Cell.ts w (some off), renderCell v]) ws vs).map
        (fun r => r.getD 0 .na) =
      ws.map (fun w => Cell.ts w (some off)) := by
  induction ws generalizing vs with
  | nil => rfl
  | cons w t ih =>
    cases vs with
    | nil => cases hlen
    | cons v vt =>
      simp only [List.zipWith_cons_cons, List.map_cons]
      rw [ih vt (by simpa using hlen)]
      rfl

/-- Reading the value column back out of a rendered CSV gives the rendered
value cells. -/
theorem map_getD1_zipWith_render (off : Int) (ws : List Int) (vs : List (Option ℚ))
    (hlen : ws.length = vs.length) :
    (List.zipWith (fun w v => [Cell.ts w (some off), renderCell v]) ws vs).map
        (fun r => r.getD 1 .na) =
      vs.map renderCell := by
  induction ws generalizing vs with
  | nil =>
    cases vs with
    | nil => rfl
    | cons v vt => cases hlen
  | cons w t ih =>
    cases vs with
    | nil => cases hlen
    | cons v vt =>
      simp only [List.zipWith_cons_cons, List.map_cons]
      rw [ih vt (by simpa using hlen)]
      rfl

/-- Re-parsing a column of offset-bearing timestamps rendered in the
declared zone recovers exactly the original walls. -/
theorem toDatetimeUTC_map_render (tz : String) (ws : List Int) :
    toDatetimeUTC tz (ws.map (fun w => Cell.ts w (some (tzOffsetMinutes tz)))) =
      .ok ws := by
  induction ws with
  | nil => rfl
  | cons w t ih =>
    rw [List.map_cons]
    rw [show toDatetimeUTC tz
        (Cell.ts w (some (tzOffsetMinutes tz)) ::
          t.map (fun w => Cell.ts w (some (tzOffsetMinutes tz)))) =
      (toDatetimeUTC tz (t.map (fun w => Cell.ts w (some (tzOffsetMinutes tz))))).map
        (fun l => (w - tzOffsetMinutes tz + tzOffsetMinutes tz) :: l) from rfl]
    rw [ih]
    simp only [Except.map, Int.sub_add_cancel]

/-- Rendered value cells form a numeric column. -/
theorem cellsNumeric_map_render (vs : List (Option ℚ)) :
    cellsNumeric (vs.map renderCell) = true := by
  rw [cellsNumeric, List.all_eq_true]
  intro c hc
  obtain ⟨v, -, rfl⟩ := List.mem_map.mp hc
  cases v <;> rfl

/-- Re-reading rendered value cells recovers the original values. -/
theorem map_cellNum_render (vs : List (Option ℚ)) :
    (vs.map renderCell).map cellNum? = vs := by
  induction vs with
  | nil => rfl
  | cons v t ih =>
    rw [List.map_cons, List.map_cons, ih]
    cases v <;> rfl

/-- C1.  Round-trip: a series accepted by the validation pipeline, rendered
to canonical CSV by the serializer and re-ingested with the same declared
timezone and granularity, is accepted again with the same index (same
instants in the same zone), the same values and the same granularity (the
data column's name may be re-canonicalised). -/
theorem c1_round_trip (ws : List Int) (vs : List (Option ℚ)) (cname gran tz name : String)
    (hlen : ws.length = vs.length)
    (hok : mkAPITimeSeriesInput
        ⟨.datetime (some tz) ws, [(cname, .numeric vs)]⟩ gran tz =
      .ok ⟨⟨.datetime (some tz) ws, [(cname, .numeric vs)]⟩, gran, tz⟩) :
    ∃ cname2, from_api_data
      (TimeSeriesData.to_csv
        ⟨⟨.datetime (some tz) ws, [(cname, .numeric vs)]⟩, gran, name⟩, gran, tz) =
      .ok ⟨⟨.datetime (some tz) ws, [(cname2, .numeric vs)]⟩, gran, tz⟩ := by
  -- invert the validation of the original payload
  rw [mkAPITimeSeriesInput] at hok
  cases hv : validate_dataframe ⟨.datetime (some tz) ws, [(cname, .numeric vs)]⟩ with
  | error e =>
    rw [hv] at hok
    cases hok
  | ok u =>
    rw [hv] at hok
    replace hok : (if (granularityFreqMap.lookup gran).isNone = true then
        Except.error (IngestError.granularityNotSupported gran)
      else if ¬ (tz ∈ allowedTimezones) then
        Except.error (IngestError.timezoneNotInList tz)
      else .ok (⟨⟨.datetime (some tz) ws, [(cname, .numeric vs)]⟩, gran, tz⟩ :
        APITimeSeriesInput)) =
      .ok ⟨⟨.datetime (some tz) ws, [(cname, .numeric vs)]⟩, gran, tz⟩ := hok
    split_ifs at hok with hg htz
    -- only the both-conditions-false branch survives; htz is positive
    -- invert validate_dataframe
    simp only [validate_dataframe, List.length_cons, List.length_nil] at hv
    rw [if_neg (by omega)] at hv
    by_cases hl3 : ws.length < 3
    · rw [if_pos hl3] at hv
      cases hv
    rw [if_neg hl3] at hv
    cases hcont : continuityCheck ws with
    | error e =>
      rw [hcont] at hv
      cases hv
    | ok u2 =>
      rw [hcont] at hv
      replace hv : (if (vs.any fun v => v.isNone) = true then
          Except.error IngestError.valueNull
        else if (vs.any fun v => match v with
            | some q => decide (q ≤ 0)
            | none => false) = true then
          Except.error IngestError.valueNonPositive
        else Except.ok ()) = Except.ok () := hv
      by_cases hnull : (vs.any fun v => v.isNone) = true
      · rw [if_pos hnull] at hv
        cases hv
      rw [if_neg hnull] at hv
      by_cases hpos : (vs.any fun v => match v with
          | some q => decide (q ≤ 0)
          | none => false) = true
      · rw [if_pos hpos] at hv
        cases hv
      -- the rendered CSV
      rw [TimeSeriesData.to_csv, dataframeToCsv]
      -- run from_api_data on it
      refine ⟨if strLower cname = "value" then cname else "value", ?_⟩
      simp only [from_api_data, parseCSV]
      rw [if_neg (not_not_intro htz)]
      rw [if_neg (not_not_intro (by simp : (["timestamp", cname].contains "timestamp") = true))]
      rw [if_neg (by simp)]
      simp only [List.indexOf_cons_self, Nat.sub_zero, List.getD_cons_succ, List.getD_cons_zero]
      rw [map_getD0_zipWith_render _ _ _ hlen, map_getD1_zipWith_render _ _ _ hlen]
      have hnonempty : ∃ w0 t, ws = w0 :: t := by
        cases ws with
        | nil => simp at hl3
        | cons w0 t => exact ⟨w0, t, rfl⟩
      obtain ⟨w0, t, rfl⟩ := hnonempty
      have hcellsF : cellsNumeric
          ((w0 :: t).map (fun w => Cell.ts w (some (tzOffsetMinutes tz)))) = false := by
        rw [List.map_cons, cellsNumeric]
        rfl
      rw [if_neg (by rw [hcellsF]; simp)]
      rw [resolveTimestamps]
      rw [if_pos (by rw [List.map_cons]; rfl)]
      rw [toDatetimeUTC_map_render]
      have hmkcol : mkColFromCells (vs.map renderCell) = .numeric vs := by
        rw [mkColFromCells, if_pos (cellsNumeric_map_render vs), map_cellNum_render]
      simp only [mkAPITimeSeriesInput, hmkcol]
      -- validation of the re-ingested frame succeeds by the same facts
      have hv2 : validate_dataframe
          ⟨.datetime (some tz) (w0 :: t),
            [(if strLower cname = "value" then cname else "value", .numeric vs)]⟩ =
          .ok () := by
        simp only [validate_dataframe, List.length_cons, List.length_nil]
        rw [if_neg (by omega),
          if_neg (by simp only [List.length_cons] at hl3; omega), hcont]
        rw [if_neg hnull, if_neg hpos]
      simp only [hv2]
      rw [if_neg hg, if_neg (not_not_intro htz)]

/-- Witness for C1: the three-point daily UTC series round-trips through
`to_csv` and `from_api_data`. -/
theorem c1_round_trip_w :
    (mkAPITimeSeriesInput
        ⟨.datetime (some "UTC") [0, 1440, 2880],
          [("value", .numeric [some 1, some 2, some 3])]⟩ "daily" "UTC" =
      .ok ⟨⟨.datetime (some "UTC") [0, 1440, 2880],
        [("value", .numeric [some 1, some 2, some 3])]⟩, "daily", "UTC"⟩) ∧
    (∃ cname2, from_api_data
      (TimeSeriesData.to_csv
        ⟨⟨.datetime (some "UTC") [0, 1440, 2880],
          [("value", .numeric [some 1, some 2, some 3])]⟩, "daily", "y"⟩, "daily", "UTC") =
      .ok ⟨⟨.datetime (some "UTC") [0, 1440, 2880],
        [(cname2, .numeric [some 1, some 2, some 3])]⟩, "daily", "UTC"⟩) :=
  ⟨by decide,
    c1_round_trip [0, 1440, 2880] [some 1, some 2, some 3] "value" "daily" "UTC" "y"
      (by decide) (by decide)⟩

end EnergyForecast
